import Mathlib

set_option autoImplicit false

/-!
Shallow embedding of the golang-mixins/logging repository (package `logging`
interface and its `logrus` adapter, file src/logrus/logging.go), together with
theorems settling the behavioural claims about it.

Go maps `map[string]interface{}` (the `logging.Values` / `logrus.Fields` type)
are embedded as association lists with unique keys; map update copies the list
and replaces the binding for the key, mirroring how `logrus.Entry.WithFields`
allocates a fresh map, copies the receiver's data and then sets each new key.
-/

/-- Embedding of Go `interface{}` values stored in a field map.  Only data
constructors are needed: the adapter never stores functions in `Values`. -/
inductive GoVal where
  | int (n : Int)
  | str (s : String)
  | bool (b : Bool)
deriving DecidableEq

/-- Embedding of `logging.Values` / `logrus.Fields` (`map[string]interface{}`). -/
abbrev Values := List (String × GoVal)

/-- Go map read `m[k]`: first binding for the key wins (keys are unique in any
list produced by the embedding, since writes replace in place). -/
def Values.lookup : Values → String → Option GoVal
  | [], _ => none
  | p :: rest, key => if p.fst = key then some p.snd else Values.lookup rest key

/-- Go map write `m[k] = v`: replace the existing binding, else append. -/
def Values.setKey : Values → String → GoVal → Values
  | [], k, v => [(k, v)]
  | p :: rest, k, v =>
    if p.fst = k then (k, v) :: rest else p :: Values.setKey rest k v

/-- Embedding of `logrus.Entry.WithFields` data merge: copy the receiver's map,
then set every binding of the argument map (new keys override old). -/
def withFields (base fs : Values) : Values :=
  fs.foldl (fun m p => Values.setKey m p.fst p.snd) base

/-!
The logrus library types used by the adapter.  `LogrusEntry` embeds
`*logrus.Entry` (its `Data` field mapping); `entry` embeds the adapter's
`entry` struct, which wraps a `*logrus.Entry` together with the shared
shutdown channel (`breaker chan context.Context`, modelled by a channel id).
-/

/-- Embedding of `*logrus.Entry`: only the `Data` field mapping matters for
the claims.  `logrus.Entry.WithFields` copies `Data` and sets the new keys. -/
structure LogrusEntry where
  Data : Values
deriving DecidableEq

/-- Embedding of the adapter struct `entry` (src/logrus/logging.go):
`*log.Entry` plus `breaker chan context.Context` (channel id). -/
structure entry where
  logrusEntry : LogrusEntry
  breaker : Nat
deriving DecidableEq

/-- Embedding of `logrus.Entry.WithFields`. -/
def LogrusEntry.WithFields (e : LogrusEntry) (fs : Values) : LogrusEntry :=
  ⟨withFields e.Data fs⟩

/-- Embedding of `entry.WithValues`: wraps the merged logrus entry together
with the same breaker channel (source line 51-53). -/
def entry.WithValues (e : entry) (v : Values) : entry :=
  ⟨e.logrusEntry.WithFields v, e.breaker⟩

/-- Embedding of `entry.GetValues`: returns `logging.Values(e.Data)`
(source line 56-58). -/
def entry.GetValues (e : entry) : Values :=
  e.logrusEntry.Data

/-!
Context model.  Go `context.Context` is embedded as a chain of
`context.WithValue` frames over `context.Background()`.  The package has one
private key (`ctxValue`); other keys model contexts touched by foreign code.
A stored value carries its Go dynamic type: the adapter's `*entry`, a bare
`*logrus.Entry`, or anything else — the type assertion `.(*entry)` in
`FromContext` succeeds only on the first.
-/

/-- Context keys: the package's private `ctxValue` sentinel, or a foreign key. -/
inductive ContextKey where
  | loggerKey
  | other (n : Nat)
deriving DecidableEq

/-- Dynamically typed values stored in a context. -/
inductive CtxVal where
  | pkgEntry (e : entry)
  | logrusEntry (e : LogrusEntry)
  | other (n : Nat)
deriving DecidableEq

/-- Embedding of `context.Context`: `Background` plus `WithValue` frames. -/
inductive Ctx where
  | background
  | withValue (parent : Ctx) (key : ContextKey) (val : CtxVal)
deriving DecidableEq

/-- Embedding of `ctx.Value(key)`: innermost frame for the key wins. -/
def Ctx.value : Ctx → ContextKey → Option CtxVal
  | .background, _ => none
  | .withValue p k v, key => if k = key then some v else Ctx.value p key

/-- Embedding of the type assertion `ctx.Value(ctxValue).(*entry)` followed by
the nil check, shared by `entry.FromContext` and `ContextLogger.FromContext`
(source lines 70-76 and 97-103). -/
def fromContextImpl (ctx : Ctx) : Option entry :=
  match Ctx.value ctx .loggerKey with
  | some (.pkgEntry e) => some e
  | _ => none

/-- Embedding of `entry.FromContext` (source lines 70-76). -/
def entry.FromContext (_e : entry) (ctx : Ctx) : Option entry :=
  fromContextImpl ctx

/-- Embedding of `entry.NewContext` (source lines 79-81): stores the receiver
`e`, a `*entry`, under the private key. -/
def entry.NewContext (e : entry) (ctx : Ctx) : Ctx :=
  .withValue ctx .loggerKey (.pkgEntry e)

/-!
The `ContextLogger` adapter: embeds `*logrus.Logger` (whose state relevant to
the claims is its registered hook list), a mutex (irrelevant to these
functional claims) and the breaker channel.
-/

/-- Embedding of `ContextLogger` (source lines 84-88): the logrus logger's
hook list (hook ids in registration order) and the breaker channel id. -/
structure ContextLogger where
  hooks : List Nat
  breaker : Nat
deriving DecidableEq

/-- Embedding of `logrus.Logger.WithFields`: allocates a fresh entry with
empty `Data` and merges the argument fields into it. -/
def ContextLogger.logrusWithFields (_cl : ContextLogger) (fs : Values) :
    LogrusEntry :=
  LogrusEntry.WithFields ⟨[]⟩ fs

/-- Embedding of `ContextLogger.WithValues` (source lines 92-94): wraps the
logrus entry in the adapter's `entry` struct with the logger's breaker. -/
def ContextLogger.WithValues (cl : ContextLogger) (v : Values) : entry :=
  ⟨cl.logrusWithFields v, cl.breaker⟩

/-- Embedding of `ContextLogger.FromContext` (source lines 97-103). -/
def ContextLogger.FromContext (_cl : ContextLogger) (ctx : Ctx) : Option entry :=
  fromContextImpl ctx

/-- Embedding of `ContextLogger.NewContext` (source lines 106-108): stores
`cl.WithFields(log.Fields(nil))`.  `ContextLogger` has no `WithFields` method
of its own, so this resolves to the promoted `logrus.Logger.WithFields`, whose
result is a bare `*logrus.Entry` — not the adapter's `*entry`. -/
def ContextLogger.NewContext (cl : ContextLogger) (ctx : Ctx) : Ctx :=
  .withValue ctx .loggerKey (.logrusEntry (cl.logrusWithFields []))

/-- Embedding of `ContextLogger.GetValues` (source lines 120-122): returns
`logging.Values` of a freshly made empty `log.Fields` map, unconditionally. -/
def ContextLogger.GetValues (_cl : ContextLogger) : Values :=
  []

/-!
Hook registration.  `AddHooks` takes untyped arguments; each is either a
non-nil value satisfying `logrus.Hook` (modelled by an id), a typed-nil hook
(assertion succeeds but the value is nil), or a value that fails the type
assertion altogether.  The source iterates, registering each conforming hook
via `cl.AddHook` before checking the next argument, and returns on the first
non-conforming one.
-/

/-- An argument passed to `AddHooks`. -/
inductive HookArg where
  | valid (id : Nat)
  | nilHook
  | invalid (v : Nat)
deriving DecidableEq

/-- Whether the argument passes `v.(log.Hook)` with a non-nil result. -/
def HookArg.conforming : HookArg → Bool
  | .valid _ => true
  | .nilHook => false
  | .invalid _ => false

/-- The `%+v` rendering of the offending value in the error message. -/
def HookArg.valueString : HookArg → String
  | .valid id => toString id
  | .nilHook => "<nil>"
  | .invalid v => toString v

/-- The `AddHooks` error message
(`value '%+v' is does not match the interface Hook`). -/
def hookErrMsg (a : HookArg) : String :=
  "value \x27" ++ HookArg.valueString a ++ "\x27 is does not match the interface Hook"

/-- Embedding of the `AddHooks` loop body over the logger's hook list: returns
the call's result and the hook list as left at return (source lines 128-135;
`cl.AddHook` appends to the logrus logger's hook registry). -/
def addHooksList : List HookArg → List Nat → Except String Unit × List Nat
  | [], st => (.ok (), st)
  | a :: rest, st =>
    if h : a.conforming then
      match a, h with
      | .valid id, _ => addHooksList rest (st ++ [id])
    else
      (.error (hookErrMsg a), st)

/-- Embedding of `ContextLogger.AddHooks` (source lines 125-136). -/
def ContextLogger.AddHooks (cl : ContextLogger) (hooks : List HookArg) :
    Except String Unit × ContextLogger :=
  let r := addHooksList hooks cl.hooks
  (r.1, ⟨r.2, cl.breaker⟩)

/-- Hook ids of the conforming arguments strictly before the first
non-conforming one. -/
def validIds (hooks : List HookArg) : List Nat :=
  (hooks.takeWhile HookArg.conforming).filterMap
    (fun a => match a with | .valid id => some id | _ => none)

/-!
The constructor `New`.  File-system effects are made explicit: `fs` maps a
path to `none` when `os.OpenFile` succeeds there and to `some e` when it
fails with OS error text `e`.  `New` is embedded as a trace: its returned
value, every `OpenFile` call it issued (with flags and permission), the paths
whose descriptors are open when it returns, and every `Close` call it issued
(the source contains none).
-/

/-- An output destination wired into `io.MultiWriter`. -/
inductive GoWriter where
  | stdout
  | stderr
  | file (path : String)
deriving DecidableEq

/-- Embedding of `logrus.Level`. -/
inductive Level where
  | panic
  | fatal
  | err
  | warn
  | info
  | debug
  | trace
deriving DecidableEq

/-- ASCII lower-casing of one character (the level names logrus matches are
all ASCII, so this captures `strings.ToLower` on the relevant inputs). -/
def asciiLower (c : Char) : Char :=
  if 65 ≤ c.toNat ∧ c.toNat ≤ 90 then Char.ofNat (c.toNat + 32) else c

/-- The character list of a string, lower-cased. -/
def lowerData (s : String) : List Char := s.data.map asciiLower

/-- Embedding of `logrus.ParseLevel`: case-insensitive match over the levels
logrus recognises. -/
def parseLevel (lvl : String) : Option Level :=
  if lowerData lvl = "panic".data then some .panic
  else if lowerData lvl = "fatal".data then some .fatal
  else if lowerData lvl = "error".data then some .err
  else if lowerData lvl = "warn".data then some .warn
  else if lowerData lvl = "warning".data then some .warn
  else if lowerData lvl = "info".data then some .info
  else if lowerData lvl = "debug".data then some .debug
  else if lowerData lvl = "trace".data then some .trace
  else none

/-- Embedding of `logrus.FieldMap` as configured by `New`. -/
structure FieldMap where
  keyFile : String
  keyFunc : String
  keyLogrusError : String
  keyTime : String
  keyLevel : String
  keyMsg : String
deriving DecidableEq

/-- Embedding of `logrus.JSONFormatter` as configured by `New`. -/
structure JSONFormatter where
  TimestampFormat : String
  fieldMap : FieldMap
deriving DecidableEq

/-- One `os.OpenFile(path, flags, perm)` call. -/
structure OpenCall where
  path : String
  flagAppend : Bool
  flagWronly : Bool
  flagCreate : Bool
  perm : Nat
deriving DecidableEq

/-- The open call `New` issues for an output path:
`os.OpenFile(v, os.O_APPEND|os.O_WRONLY|os.O_CREATE, 0600)` (source line 161). -/
def mkOpenCall (p : String) : OpenCall :=
  ⟨p, true, true, true, 0o600⟩

/-- The file-open error message
(`error open file path '%s': %w`, source line 163). -/
def fileErrMsg (p e : String) : String :=
  "error open file path \x27" ++ p ++ "\x27: " ++ e

/-- The level-parse error message: `error parse level value '%s': %w`
wrapping logrus's `not a valid logrus Level: "%s"` (source line 171). -/
def levelErrMsg (level : String) : String :=
  "error parse level value \x27" ++ level ++
    ("\x27: not a valid logrus Level: \x22" ++ (level ++ "\x22"))

/-- The configuration state of a logger successfully built by `New`. -/
structure LoggerCfg where
  formatter : JSONFormatter
  writers : List GoWriter
  reportCaller : Bool
  level : Level
  breaker : Nat
deriving DecidableEq

/-- The observable trace of one call to `New`. -/
structure NewResult where
  result : Except String LoggerCfg
  openCalls : List OpenCall
  openedFiles : List String
  closeCalls : List String

/-- Embedding of the output-file loop of `New` (source lines 160-166):
returns the open calls issued, the paths opened successfully (in order), and
the first error, if any.  The loop stops at the first failing open. -/
def openLoop (fs : String → Option String) : List String →
    List OpenCall × List String × Option String
  | [] => ([], [], none)
  | p :: rest =>
    match fs p with
    | some e => ([mkOpenCall p], [], some (fileErrMsg p e))
    | none =>
      let r := openLoop fs rest
      (mkOpenCall p :: r.1, p :: r.2.1, r.2.2)

/-- The formatter `New` installs (source lines 147-158): Go reference layout
`02.01.2006 15:04:05`, i.e. the pattern DD.MM.YYYY HH:MM:SS. -/
def newFormatter : JSONFormatter :=
  ⟨"02.01.2006 15:04:05",
   ⟨"file", "func", "logger_error", "timestamp", "level", "message"⟩⟩

/-- Embedding of the constructor `New` (source lines 142-179).  `breaker` is
`none` for a nil channel, `some b` for channel id `b`.  Mirrors the source's
order: nil-channel check, formatter, file opens (stopping at the first
failure), report-caller, level parse; the writer list starts with `os.Stdout`
(source line 159); the source never closes a file, so `closeCalls` is empty
on every path. -/
def New (breaker : Option Nat) (fs : String → Option String) (level : String)
    (outputs : List String) : NewResult :=
  match breaker with
  | none => ⟨.error "breaker can\x27t be nil", [], [], []⟩
  | some b =>
    let r := openLoop fs outputs
    match r.2.2 with
    | some msg => ⟨.error msg, r.1, r.2.1, []⟩
    | none =>
      match parseLevel level with
      | none => ⟨.error (levelErrMsg level), r.1, r.2.1, []⟩
      | some lvl =>
        ⟨.ok ⟨newFormatter, GoWriter.stdout :: r.2.1.map GoWriter.file, true, lvl, b⟩,
         r.1, r.2.1, []⟩

/-!
Concrete inputs used by the closed theorems below.
-/

/-- A file system on which every open succeeds. -/
def fs0 : String → Option String := fun _ => none

/-- A file system on which opening `b.log` fails and every other open
succeeds. -/
def fsFailB : String → Option String :=
  fun p => if p = "b.log" then some "permission denied" else none

/-- A root logger as built by `New` with breaker channel 0 and no hooks. -/
def demoLogger : ContextLogger := ⟨[], 0⟩

/-- A derived entry with no accumulated fields and breaker channel 0. -/
def demoEntry : entry := ⟨⟨[]⟩, 0⟩

/-- The field map containing the single binding a to 1. -/
def aField : Values := [("a", GoVal.int 1)]

/-- The field map containing the single binding b to 2. -/
def bField : Values := [("b", GoVal.int 2)]

/-- The logger configuration `New (some 5) fs0 "info" []` produces. -/
def demoCfg : LoggerCfg := ⟨newFormatter, [GoWriter.stdout], true, Level.info, 5⟩

/-- The logger configuration `New (some 0) fs0 "info" ["a.log"]` produces. -/
def demoCfgA : LoggerCfg :=
  ⟨newFormatter, [GoWriter.stdout, GoWriter.file "a.log"], true, Level.info, 0⟩

/-!
Helper lemmas about the field-map merge, the constructor trace and the hook
loop.
-/

theorem Values.lookup_setKey (m : Values) (k k' : String) (v : GoVal) :
    Values.lookup (Values.setKey m k v) k'
      = if k = k' then some v else Values.lookup m k' := by
  induction m with
  | nil =>
    simp only [Values.setKey, Values.lookup]
  | cons p rest ih =>
    by_cases hpk : p.fst = k
    · simp only [Values.setKey, hpk, if_pos rfl, Values.lookup]
      by_cases hkk : k = k'
      · simp [hkk]
      · simp [hkk, hpk ▸ hkk]
    · simp only [Values.setKey, if_neg hpk, Values.lookup]
      by_cases hpk' : p.fst = k'
      · have hkk : ¬ k = k' := fun h => hpk (h ▸ hpk')
        simp [hpk', hkk]
      · simp [hpk', ih]

theorem Values.lookup_eq_none (m : Values) (k : String)
    (h : k ∉ m.map Prod.fst) : Values.lookup m k = none := by
  induction m with
  | nil => rfl
  | cons p rest ih =>
    simp only [List.map_cons, List.mem_cons] at h
    push_neg at h
    have hp : ¬ p.fst = k := fun he => h.1 he.symm
    simp [Values.lookup, hp, ih h.2]

/-- Merge law for the logrus field merge: on key-unique argument maps, a key
bound by the new fields wins, any other key keeps its old binding. -/
theorem lookup_withFields (base fs : Values)
    (hfs : (fs.map Prod.fst).Nodup) (k : String) :
    Values.lookup (withFields base fs) k
      = match Values.lookup fs k with
        | some x => some x
        | none => Values.lookup base k := by
  induction fs generalizing base with
  | nil => rfl
  | cons p rest ih =>
    simp only [List.map_cons, List.nodup_cons] at hfs
    have hstep : withFields base (p :: rest)
        = withFields (Values.setKey base p.fst p.snd) rest := rfl
    rw [hstep, ih _ hfs.2]
    by_cases hk : p.fst = k
    · have hnone : Values.lookup rest k = none := by
        apply Values.lookup_eq_none
        intro hmem
        exact hfs.1 (hk ▸ hmem)
      simp [Values.lookup, hnone, hk, Values.lookup_setKey]
    · simp only [Values.lookup, if_neg hk]
      cases hrest : Values.lookup rest k with
      | some x => simp
      | none => simp [Values.lookup_setKey, hk]

theorem openLoop_opened (fs : String → Option String) (outs : List String) :
    (openLoop fs outs).2.1 = outs.takeWhile (fun p => (fs p).isNone) := by
  induction outs with
  | nil => rfl
  | cons p rest ih =>
    cases hfp : fs p with
    | some e => simp [openLoop, hfp, List.takeWhile_cons]
    | none => simp [openLoop, hfp, List.takeWhile_cons, ih]

theorem openLoop_all_ok (fs : String → Option String) (outs : List String)
    (h : ∀ p ∈ outs, fs p = none) :
    openLoop fs outs = (outs.map mkOpenCall, outs, none) := by
  induction outs with
  | nil => rfl
  | cons p rest ih =>
    have hp : fs p = none := h p (List.mem_cons_self p rest)
    have hrest : ∀ q ∈ rest, fs q = none := fun q hq => h q (List.mem_cons_of_mem p hq)
    simp [openLoop, hp, ih hrest]

theorem openLoop_calls_shape (fs : String → Option String) (outs : List String) :
    ∀ c ∈ (openLoop fs outs).1, ∃ p, c = mkOpenCall p := by
  induction outs with
  | nil => intro c hc; simp [openLoop] at hc
  | cons p rest ih =>
    intro c hc
    cases hfp : fs p with
    | some e =>
      simp [openLoop, hfp] at hc
      exact ⟨p, hc⟩
    | none =>
      simp only [openLoop, hfp] at hc
      rcases List.mem_cons.mp hc with h1 | h2
      · exact ⟨p, h1⟩
      · exact ih c h2

theorem New_closeCalls (breaker : Option Nat) (fs : String → Option String)
    (level : String) (outs : List String) :
    (New breaker fs level outs).closeCalls = [] := by
  cases breaker with
  | none => rfl
  | some b =>
    simp only [New]
    cases (openLoop fs outs).2.2 with
    | some msg => rfl
    | none =>
      cases parseLevel level with
      | none => rfl
      | some lvl => rfl

theorem New_openedFiles (b : Nat) (fs : String → Option String)
    (level : String) (outs : List String) :
    (New (some b) fs level outs).openedFiles
      = outs.takeWhile (fun p => (fs p).isNone) := by
  simp only [New]
  cases (openLoop fs outs).2.2 with
  | some msg => exact openLoop_opened fs outs
  | none =>
    cases parseLevel level with
    | none => exact openLoop_opened fs outs
    | some lvl => exact openLoop_opened fs outs

theorem New_openCalls (b : Nat) (fs : String → Option String)
    (level : String) (outs : List String) :
    (New (some b) fs level outs).openCalls = (openLoop fs outs).1 := by
  simp only [New]
  cases (openLoop fs outs).2.2 with
  | some msg => rfl
  | none =>
    cases parseLevel level with
    | none => rfl
    | some lvl => rfl

theorem addHooksList_err (args : List HookArg) (st : List Nat)
    (h : ∃ a ∈ args, a.conforming = false) :
    (∃ msg, (addHooksList args st).1 = .error msg)
      ∧ (addHooksList args st).2 = st ++ validIds args := by
  induction args generalizing st with
  | nil => rcases h with ⟨a, ha, _⟩; exact absurd ha (List.not_mem_nil a)
  | cons a rest ih =>
    cases a with
    | valid id =>
      have hrest : ∃ x ∈ rest, x.conforming = false := by
        rcases h with ⟨x, hx, hxc⟩
        rcases List.mem_cons.mp hx with h1 | h2
        · rw [h1] at hxc; exact absurd hxc (by simp [HookArg.conforming])
        · exact ⟨x, h2, hxc⟩
      have hstep : addHooksList (HookArg.valid id :: rest) st
          = addHooksList rest (st ++ [id]) := rfl
      rw [hstep]
      refine ⟨(ih (st ++ [id]) hrest).1, ?_⟩
      rw [(ih (st ++ [id]) hrest).2]
      simp [validIds, List.takeWhile_cons, HookArg.conforming]
    | nilHook =>
      refine ⟨⟨hookErrMsg HookArg.nilHook, rfl⟩, ?_⟩
      simp [addHooksList, HookArg.conforming, validIds, List.takeWhile_cons]
    | invalid v =>
      refine ⟨⟨hookErrMsg (HookArg.invalid v), rfl⟩, ?_⟩
      simp [addHooksList, HookArg.conforming, validIds, List.takeWhile_cons]

/-!
The claims.
-/

/-- Claim C1 (code bug): on the root `ContextLogger`, `NewContext` stores the
result of the promoted `logrus.Logger.WithFields` — a bare `*logrus.Entry`
with an empty field mapping, not the adapter's `*entry` — so the
`FromContext` type assertion fails and the round trip returns nil instead of
a non-nil Entry with the stored (empty) field mapping.  On a derived `entry`,
which stores itself, the round trip does hold. -/
theorem contextLogger_newContext_fromContext_returns_none :
    Ctx.value (ContextLogger.NewContext demoLogger Ctx.background)
        ContextKey.loggerKey
      = some (CtxVal.logrusEntry ⟨[]⟩)
    ∧ ContextLogger.FromContext demoLogger
        (ContextLogger.NewContext demoLogger Ctx.background) = none
    ∧ entry.FromContext demoEntry (entry.NewContext demoEntry Ctx.background)
        = some demoEntry
    ∧ fromContextImpl Ctx.background = none :=
  ⟨rfl, rfl, rfl, rfl⟩

/-- Claim C2 (code bug): the base writer `New` wires into the multi-writer is
`os.Stdout` (source line 159), although the constructor's own doc comment and
the specification say the output destination is standard error plus the
opened files.  Evaluated at a successful construction with one output file:
the writer list is standard output plus the file, and standard error is not
among the writers. -/
theorem new_base_writer_is_stdout_not_stderr :
    ∃ cfg : LoggerCfg,
      (New (some 0) fs0 "info" ["a.log"]).result = Except.ok cfg
      ∧ cfg.writers = [GoWriter.stdout, GoWriter.file "a.log"]
      ∧ GoWriter.stderr ∉ cfg.writers := by
  refine ⟨demoCfgA, rfl, rfl, ?_⟩
  decide

/-- Claim C3 counterexample: calling `AddHooks` with a conforming hook (id 7)
followed by a non-conforming value returns an error, yet the hook list is not
unchanged — hook 7 was registered before the check of the second argument
failed. -/
theorem addHooks_not_atomic_counterexample :
    (∃ msg, (ContextLogger.AddHooks demoLogger
        [HookArg.valid 7, HookArg.invalid 3]).1 = Except.error msg)
    ∧ (ContextLogger.AddHooks demoLogger
        [HookArg.valid 7, HookArg.invalid 3]).2.hooks ≠ demoLogger.hooks :=
  ⟨⟨hookErrMsg (HookArg.invalid 3), rfl⟩, by decide⟩

/-- Claim C3 as amended: a call to `AddHooks` containing a non-conforming
argument returns an error, but registration is not atomic — the conforming
arguments strictly before the first non-conforming one are appended to the
hook list, and the remaining arguments are not registered. -/
theorem addHooks_error_registers_conforming_prefix (cl : ContextLogger)
    (args : List HookArg) (h : ∃ a ∈ args, a.conforming = false) :
    (∃ msg, (cl.AddHooks args).1 = Except.error msg)
    ∧ (cl.AddHooks args).2.hooks = cl.hooks ++ validIds args
    ∧ (cl.AddHooks args).2.breaker = cl.breaker :=
  ⟨(addHooksList_err args cl.hooks h).1,
   (addHooksList_err args cl.hooks h).2, rfl⟩

/-- Witness for the amended claim C3 at the concrete call
`AddHooks [valid 7, invalid 3]` on a logger with no hooks. -/
theorem addHooks_error_registers_conforming_prefix_witness :
    (∃ a ∈ [HookArg.valid 7, HookArg.invalid 3], a.conforming = false)
    ∧ ((∃ msg, (ContextLogger.AddHooks demoLogger
          [HookArg.valid 7, HookArg.invalid 3]).1 = Except.error msg)
       ∧ (ContextLogger.AddHooks demoLogger
            [HookArg.valid 7, HookArg.invalid 3]).2.hooks
          = demoLogger.hooks ++ validIds [HookArg.valid 7, HookArg.invalid 3]
       ∧ (ContextLogger.AddHooks demoLogger
            [HookArg.valid 7, HookArg.invalid 3]).2.breaker
          = demoLogger.breaker) :=
  ⟨by decide,
   addHooks_error_registers_conforming_prefix demoLogger
     [HookArg.valid 7, HookArg.invalid 3] (by decide)⟩

/-- Claim C4: `WithValues` returns a new Entry whose field mapping is the
union of the receiver's fields and the supplied Values with new keys
overriding old, and never mutates the receiver: the chained example yields
the merged mapping while the intermediate entry still yields only its own
binding. -/
theorem withValues_merges_without_mutating (e : entry) (v : Values)
    (hv : (v.map Prod.fst).Nodup) (k : String) :
    Values.lookup (entry.GetValues (entry.WithValues e v)) k
      = (match Values.lookup v k with
         | some x => some x
         | none => Values.lookup (entry.GetValues e) k)
    ∧ entry.GetValues
        (entry.WithValues (entry.WithValues demoEntry aField) bField)
      = [("a", GoVal.int 1), ("b", GoVal.int 2)]
    ∧ entry.GetValues (entry.WithValues demoEntry aField)
      = [("a", GoVal.int 1)] :=
  ⟨lookup_withFields (entry.GetValues e) v hv k, rfl, rfl⟩

/-- Witness for claim C4 at the singleton map a to 1 and key a. -/
theorem withValues_merges_without_mutating_witness :
    (aField.map Prod.fst).Nodup
    ∧ (Values.lookup (entry.GetValues (entry.WithValues demoEntry aField)) "a"
        = (match Values.lookup aField "a" with
           | some x => some x
           | none => Values.lookup (entry.GetValues demoEntry) "a")
       ∧ entry.GetValues
           (entry.WithValues (entry.WithValues demoEntry aField) bField)
         = [("a", GoVal.int 1), ("b", GoVal.int 2)]
       ∧ entry.GetValues (entry.WithValues demoEntry aField)
         = [("a", GoVal.int 1)]) :=
  ⟨by decide,
   withValues_merges_without_mutating demoEntry aField (by decide) "a"⟩

/-- Claim C9: `GetValues` on the root `ContextLogger` returns the empty
mapping, also after hook registration, while `GetValues` on a derived entry
returns the entry's accumulated field mapping (the merge of the fields it was
derived with). -/
theorem getValues_root_empty_entry_accumulated (cl : ContextLogger)
    (args : List HookArg) (v w : Values) (e : entry) :
    ContextLogger.GetValues cl = []
    ∧ ContextLogger.GetValues (cl.AddHooks args).2 = []
    ∧ entry.GetValues (ContextLogger.WithValues cl v) = withFields [] v
    ∧ entry.GetValues (entry.WithValues e w)
      = withFields (entry.GetValues e) w :=
  ⟨rfl, rfl, rfl, rfl⟩

/-- Claim C5: `New` with a nil breaker channel fails deterministically with
the nil-breaker error, attempts no file open and returns no logger; and every
logger `New` does return carries the caller's non-nil breaker channel. -/
theorem new_rejects_nil_breaker (b : Option Nat) (fs : String → Option String)
    (level : String) (outputs : List String) :
    ((New none fs level outputs).result
        = Except.error "breaker can\x27t be nil"
     ∧ (New none fs level outputs).openCalls = []
     ∧ (New none fs level outputs).openedFiles = [])
    ∧ ∀ cfg : LoggerCfg, (New b fs level outputs).result = Except.ok cfg →
        ∃ c : Nat, b = some c ∧ cfg.breaker = c := by
  refine ⟨⟨rfl, rfl, rfl⟩, ?_⟩
  intro cfg hcfg
  cases b with
  | none => exact absurd hcfg (by simp [New])
  | some c =>
    refine ⟨c, rfl, ?_⟩
    simp only [New] at hcfg
    cases h1 : (openLoop fs outputs).2.2 with
    | some msg => rw [h1] at hcfg; cases hcfg
    | none =>
      rw [h1] at hcfg
      cases h2 : parseLevel level with
      | none => rw [h2] at hcfg; cases hcfg
      | some lvl =>
        rw [h2] at hcfg
        cases hcfg
        rfl

/-- Witness for claim C5: the nil-breaker call fails without file I/O, and
the logger built with breaker channel 5 carries channel 5. -/
theorem new_rejects_nil_breaker_witness :
    ((New none fs0 "info" []).result = Except.error "breaker can\x27t be nil"
     ∧ (New none fs0 "info" []).openCalls = []
     ∧ (New none fs0 "info" []).openedFiles = [])
    ∧ demoCfg.breaker = 5 := by
  refine ⟨(new_rejects_nil_breaker (some 5) fs0 "info" []).1, ?_⟩
  obtain ⟨c, hc, hb⟩ :=
    (new_rejects_nil_breaker (some 5) fs0 "info" []).2 demoCfg rfl
  rw [hb]
  exact (Option.some.inj hc).symm

/-- Claim C7: when the breaker is non-nil and every output opens, `New` with
a level string the parser does not recognise fails with exactly the
level-parse error, that error message contains the offending input string,
and no logger is returned. -/
theorem new_invalid_level_error_mentions_input (b : Nat)
    (fs : String → Option String) (level : String) (outputs : List String)
    (hlvl : parseLevel level = none) (hfs : ∀ p ∈ outputs, fs p = none) :
    (New (some b) fs level outputs).result = Except.error (levelErrMsg level)
    ∧ (∀ cfg : LoggerCfg,
        (New (some b) fs level outputs).result ≠ Except.ok cfg)
    ∧ ∃ pre post : String, levelErrMsg level = pre ++ level ++ post := by
  have hopen := openLoop_all_ok fs outputs hfs
  have h1 : (New (some b) fs level outputs).result
      = Except.error (levelErrMsg level) := by
    simp [New, hopen, hlvl]
  refine ⟨h1, ?_, ?_⟩
  · intro cfg hc
    rw [h1] at hc
    cases hc
  · exact ⟨"error parse level value \x27",
      "\x27: not a valid logrus Level: \x22" ++ (level ++ "\x22"), rfl⟩

/-- Witness for claim C7 at the invalid level string "verbose". -/
theorem new_invalid_level_error_mentions_input_witness :
    parseLevel "verbose" = none
    ∧ (New (some 0) fs0 "verbose" []).result
        = Except.error (levelErrMsg "verbose") :=
  ⟨by decide,
   (new_invalid_level_error_mentions_input 0 fs0 "verbose" [] (by decide)
     (fun p hp => absurd hp (List.not_mem_nil p))).1⟩

/-- Claim C8: every logger `New` returns is configured with the JSON
formatter whose timestamp layout is `02.01.2006 15:04:05` (the Go reference
layout for DD.MM.YYYY HH:MM:SS) and whose field keys are renamed to file,
func, logger_error, timestamp, level and message, with caller reporting on;
and every file open the call issued used flags append, write-only and create
with permission 0600. -/
theorem new_formatter_and_open_flags (b : Nat) (fs : String → Option String)
    (level : String) (outputs : List String) (cfg : LoggerCfg)
    (h : (New (some b) fs level outputs).result = Except.ok cfg) :
    cfg.formatter
      = ⟨"02.01.2006 15:04:05",
         ⟨"file", "func", "logger_error", "timestamp", "level", "message"⟩⟩
    ∧ cfg.reportCaller = true
    ∧ ∀ c ∈ (New (some b) fs level outputs).openCalls,
        c.flagAppend = true ∧ c.flagWronly = true ∧ c.flagCreate = true
          ∧ c.perm = 0o600 := by
  have hcalls : ∀ c ∈ (New (some b) fs level outputs).openCalls,
      c.flagAppend = true ∧ c.flagWronly = true ∧ c.flagCreate = true
        ∧ c.perm = 0o600 := by
    rw [New_openCalls]
    intro c hc
    obtain ⟨p, rfl⟩ := openLoop_calls_shape fs outputs c hc
    exact ⟨rfl, rfl, rfl, rfl⟩
  simp only [New] at h
  cases h1 : (openLoop fs outputs).2.2 with
  | some msg => rw [h1] at h; cases h
  | none =>
    rw [h1] at h
    cases h2 : parseLevel level with
    | none => rw [h2] at h; cases h
    | some lvl =>
      rw [h2] at h
      cases h
      exact ⟨rfl, rfl, hcalls⟩

/-- Witness for claim C8 at a successful construction with one output file. -/
theorem new_formatter_and_open_flags_witness :
    demoCfgA.formatter
      = ⟨"02.01.2006 15:04:05",
         ⟨"file", "func", "logger_error", "timestamp", "level", "message"⟩⟩
    ∧ demoCfgA.reportCaller = true :=
  ⟨(new_formatter_and_open_flags 0 fs0 "info" ["a.log"] demoCfgA rfl).1,
   (new_formatter_and_open_flags 0 fs0 "info" ["a.log"] demoCfgA rfl).2.1⟩

/-- Claim C10: when `New` returns an error after at least one output file was
already opened, the files opened earlier stay open: the call issues no close,
and the opened descriptors at return are exactly the longest prefix of
outputs that opened successfully. -/
theorem new_error_leaves_opened_files_open (b : Nat)
    (fs : String → Option String) (level : String) (outputs : List String)
    (msg : String)
    (_herr : (New (some b) fs level outputs).result = Except.error msg)
    (hne : (New (some b) fs level outputs).openedFiles ≠ []) :
    (New (some b) fs level outputs).openedFiles
      = outputs.takeWhile (fun p => (fs p).isNone)
    ∧ (New (some b) fs level outputs).closeCalls = []
    ∧ (New (some b) fs level outputs).openedFiles ≠ [] :=
  ⟨New_openedFiles b fs level outputs,
   New_closeCalls (some b) fs level outputs, hne⟩

/-- Witness for claim C10: opening `a.log` succeeds, opening `b.log` fails,
the call errors, and `a.log` is still open with no close issued. -/
theorem new_error_leaves_opened_files_open_witness :
    (New (some 0) fsFailB "info" ["a.log", "b.log"]).openedFiles
      = ["a.log", "b.log"].takeWhile (fun p => (fsFailB p).isNone)
    ∧ (New (some 0) fsFailB "info" ["a.log", "b.log"]).closeCalls = []
    ∧ (New (some 0) fsFailB "info" ["a.log", "b.log"]).openedFiles ≠ [] :=
  new_error_leaves_opened_files_open 0 fsFailB "info" ["a.log", "b.log"]
    (fileErrMsg "b.log" "permission denied") rfl (by decide)
